import Mathlib

/-!
Verification of the KanMind task-board backend against its specification.

The Django application is shallowly embedded: ORM rows become structures
(foreign keys to a `Board` are embedded as the related `Board` value, matching
how the permission code dereferences `obj.board`; nullable foreign keys become
`Option`), the database becomes lists of rows, and each request handler or
permission class becomes an executable Lean function that mirrors the Python
control flow of the corresponding source function.
-/

namespace KanMind

/-- Primary key of a Django `auth.User` row. -/
abbrev UserId := Nat

/-- A row of `django.contrib.auth.models.User`, restricted to the columns the
embedded views read: `id`, `email`, `username`, `first_name`, `last_name`, and
the stored credential that `django.contrib.auth.authenticate` checks the
submitted password against. -/
structure User where
  id : UserId
  email : String
  username : String
  firstName : String
  lastName : String
  password : String
  deriving Repr, DecidableEq

/-- `app_board.models.Board`: `title`, `owner` (FK to User, by id), and the
`members` many-to-many relation (list of user ids, as returned by
`board.members.all()`). -/
structure Board where
  id : Nat
  title : String
  owner : UserId
  members : List UserId
  deriving Repr, DecidableEq

/-- `app_task.models.Task`. The `board` foreign key is embedded as the related
`Board` row itself (the permission and serializer code always reads it as
`obj.board`); `assignee`, `reviewer` and `created_by` are nullable FKs. -/
structure Task where
  id : Nat
  board : Board
  title : String
  description : Option String
  status : String
  priority : String
  assignee : Option UserId
  reviewer : Option UserId
  dueDate : Option String
  createdBy : Option UserId
  deriving Repr, DecidableEq

/-- `app_task.models.Comment`: the `author` foreign key is non-nullable
(`on_delete=CASCADE`), so it is a plain `UserId`. -/
structure Comment where
  id : Nat
  task : Nat
  author : UserId
  content : String
  deriving Repr, DecidableEq

/-- The persistence store: one list of rows per model. -/
structure DB where
  users : List User
  boards : List Board
  tasks : List Task
  comments : List Comment
  deriving Repr

/-! ## Board permission classes (`app_board/api/permissions.py`) -/

/-- `IsBoardMemberOrOwner.has_object_permission`:
`obj.owner == request.user or request.user in obj.members.all()`. -/
def isBoardMemberOrOwner (user : UserId) (obj : Board) : Bool :=
  obj.owner == user || obj.members.contains user

/-- `IsBoardOwner.has_object_permission`: `obj.owner == request.user`. -/
def isBoardOwner (user : UserId) (obj : Board) : Bool :=
  obj.owner == user

/-- `IsMemberOrOwnerOfAnyBoard.has_permission`:
`Board.objects.filter(Q(owner=request.user) | Q(members=request.user)).exists()`. -/
def isMemberOrOwnerOfAnyBoard (db : DB) (user : UserId) : Bool :=
  db.boards.any (fun b => b.owner == user || b.members.contains user)

/-! ## Board view flows (`app_board/api/views.py`) -/

/-- Outcome of a request, labelled with the HTTP status the DRF machinery
produces: a raised `PermissionDenied` is 403, `NotFound` is 404,
`ValidationError` is 400, `MethodNotAllowed` is 405. -/
inductive Outcome (α : Type) where
  | ok (value : α)
  | validationError (field : String) (msg : String)
  | forbidden
  | notFound
  | methodNotAllowed
  | serverError (exception : String)
  deriving Repr, DecidableEq

/-- Propagate a failing outcome, continue from a success. -/
def Outcome.andThen {α β : Type} (x : Outcome α) (next : α → Outcome β) : Outcome β :=
  match x with
  | .ok a => next a
  | .validationError fld msg => .validationError fld msg
  | .forbidden => .forbidden
  | .notFound => .notFound
  | .methodNotAllowed => .methodNotAllowed
  | .serverError e => .serverError e

/-- `BoardViewSet` with `action == "list"`: `get_permissions` appends
`IsMemberOrOwnerOfAnyBoard` to `[IsAuthenticated]`; if it denies, DRF returns
403, otherwise `get_queryset` filters boards where the user is owner or
member. The principal is an authenticated user (otherwise `IsAuthenticated`
already rejected with 401 before this permission runs). -/
def listBoards (db : DB) (user : UserId) : Outcome (List Board) :=
  if isMemberOrOwnerOfAnyBoard db user then
    .ok (db.boards.filter (fun b => b.owner == user || b.members.contains user))
  else
    .forbidden

/-- `BoardViewSet` with `action == "destroy"`: `get_object` looks the board up
in `Board.objects.all()` (so a non-member reaches the permission check and can
receive 403 rather than 404), raises `NotFound` if absent, then
`check_object_permissions` runs `IsBoardOwner`. -/
def destroyBoard (db : DB) (user : UserId) (boardId : Nat) : Outcome Unit :=
  match db.boards.find? (fun b => b.id == boardId) with
  | none => .notFound
  | some obj =>
    if isBoardOwner user obj then .ok () else .forbidden

/-- The boolean owner-or-member test used across the board permission classes,
read back as a proposition. -/
theorem ownerOrMember_eq_true (b : Board) (user : UserId) :
    (b.owner == user || b.members.contains user) = true ↔
      b.owner = user ∨ user ∈ b.members := by
  simp

/-! ## Claim C4: board deletion is permitted exactly for the owner -/

/-- Claim C4: for every principal p and board B present in the store, deleting
B is permitted if and only if p equals B.owner; every other principal,
member or not, is denied with 403. -/
theorem destroyBoard_iff_owner (db : DB) (user : UserId) (boardId : Nat)
    (b : Board) (hfind : db.boards.find? (fun x => x.id == boardId) = some b) :
    (destroyBoard db user boardId = .ok () ↔ user = b.owner) ∧
    (user ≠ b.owner → destroyBoard db user boardId = .forbidden) := by
  have hd : destroyBoard db user boardId =
      if isBoardOwner user b then .ok () else .forbidden := by
    rw [destroyBoard, hfind]
  rw [hd]
  by_cases h : isBoardOwner user b = true
  · rw [if_pos h]
    simp only [isBoardOwner, beq_iff_eq] at h
    exact ⟨⟨fun _ => h.symm, fun _ => rfl⟩, fun hne => absurd h.symm hne⟩
  · rw [if_neg h]
    simp only [isBoardOwner, beq_iff_eq] at h
    exact ⟨⟨fun hc => Outcome.noConfusion hc, fun he => absurd he.symm h⟩, fun _ => rfl⟩

/-- Witness for C4: a concrete store where user 1 owns board 10; user 1 may
delete it and user 2 is denied. -/
theorem destroyBoard_iff_owner_witness :
    (destroyBoard ⟨[], [⟨10, "Sprint 1", 1, [2]⟩], [], []⟩ 1 10 = .ok () ↔
      (1 : UserId) = 1) ∧
    ((1 : UserId) ≠ 1 → destroyBoard ⟨[], [⟨10, "Sprint 1", 1, [2]⟩], [], []⟩ 1 10 = .forbidden) :=
  destroyBoard_iff_owner ⟨[], [⟨10, "Sprint 1", 1, [2]⟩], [], []⟩ 1 10
    ⟨10, "Sprint 1", 1, [2]⟩ (by decide)

/-! ## Claim C5: listing boards is gated on having at least one board -/

/-- Claim C5: the list-boards operation is permitted iff there is at least one
board where the principal is owner or member; a principal with no such board
receives a 403 denial, never an empty 200 list. -/
theorem listBoards_forbidden_iff (db : DB) (user : UserId) :
    (listBoards db user = .forbidden ↔
      ∀ b ∈ db.boards, b.owner ≠ user ∧ user ∉ b.members) ∧
    (listBoards db user ≠ .ok []) := by
  have hany : isMemberOrOwnerOfAnyBoard db user = true ↔
      ∃ b ∈ db.boards, b.owner = user ∨ user ∈ b.members := by
    simp [isMemberOrOwnerOfAnyBoard]
  rw [listBoards]
  by_cases h : isMemberOrOwnerOfAnyBoard db user = true
  · rw [if_pos h]
    obtain ⟨b, hb, hcase⟩ := hany.mp h
    refine ⟨⟨fun hc => Outcome.noConfusion hc, fun hall => ?_⟩, fun hc => ?_⟩
    · rcases hcase with h1 | h2
      · exact absurd h1 (hall b hb).1
      · exact absurd h2 (hall b hb).2
    · simp only [Outcome.ok.injEq] at hc
      have hbmem : b ∈ db.boards.filter
          (fun x => x.owner == user || x.members.contains user) := by
        rw [List.mem_filter]
        refine ⟨hb, ?_⟩
        rcases hcase with h1 | h2
        · simp [h1]
        · simp [h2]
      rw [hc] at hbmem
      exact List.not_mem_nil b hbmem
  · rw [if_neg h]
    have hno : ¬ ∃ b ∈ db.boards, b.owner = user ∨ user ∈ b.members :=
      fun hx => h (hany.mpr hx)
    push_neg at hno
    exact ⟨⟨fun _ => hno, fun _ => rfl⟩, fun hc => Outcome.noConfusion hc⟩

/-! ## Task and comment permission classes (`app_task/api/permissions.py`) -/

/-- `IsBoardMemberForTask.has_object_permission`:
`request.user in obj.board.members.all()`. -/
def isBoardMemberForTaskObj (user : UserId) (obj : Task) : Bool :=
  obj.board.members.contains user

/-- `IsBoardOwnerOrTaskCreator.has_object_permission`:
`(obj.board.owner == user) or (obj.created_by is not None and obj.created_by == user)`. -/
def isBoardOwnerOrTaskCreator (user : UserId) (obj : Task) : Bool :=
  (obj.board.owner == user) || (obj.createdBy.isSome && obj.createdBy == some user)

/-- `IsCommentCreator.has_object_permission`:
`obj.author is not None and obj.author == user`; `Comment.author` is a
non-nullable foreign key, so the embedded author is always present. -/
def isCommentCreator (user : UserId) (obj : Comment) : Bool :=
  obj.author == user

/-! ## Task and comment destroy flows (`app_task/api/views.py`) -/

/-- `TaskViewSet` with `action == "destroy"`: `get_permissions` appends
`IsBoardOwnerOrTaskCreator` to `[IsAuthenticated]`; the object-level check
runs on the task fetched for deletion ("delete" is in `http_method_names`,
so the request reaches the handler). -/
def destroyTask (user : UserId) (task : Task) : Outcome Unit :=
  if isBoardOwnerOrTaskCreator user task then .ok () else .forbidden

/-- `CommentViewSet` with `action == "destroy"`: `get_permissions` appends
only `IsCommentCreator` to `[IsAuthenticated]` (board membership is checked
for list and create only), so authorship alone decides deletion. -/
def destroyComment (user : UserId) (comment : Comment) : Outcome Unit :=
  if isCommentCreator user comment then .ok () else .forbidden

/-! ## Claim C3: task deletion is for the board owner or the task creator -/

/-- Claim C3: deleting a task t is permitted if and only if the principal owns
t.board or the principal is t.created_by; everyone else receives 403. -/
theorem destroyTask_iff_owner_or_creator (user : UserId) (task : Task) :
    (destroyTask user task = .ok () ↔
      task.board.owner = user ∨ task.createdBy = some user) ∧
    (¬(task.board.owner = user ∨ task.createdBy = some user) →
      destroyTask user task = .forbidden) := by
  have hperm : isBoardOwnerOrTaskCreator user task = true ↔
      task.board.owner = user ∨ task.createdBy = some user := by
    rw [isBoardOwnerOrTaskCreator]
    rcases hcb : task.createdBy with _ | cb
    · simp [hcb]
    · simp [hcb]
  rw [destroyTask]
  by_cases h : isBoardOwnerOrTaskCreator user task = true
  · rw [if_pos h]
    exact ⟨⟨fun _ => hperm.mp h, fun _ => rfl⟩, fun hno => absurd (hperm.mp h) hno⟩
  · rw [if_neg h]
    exact ⟨⟨fun hc => Outcome.noConfusion hc, fun hyes => absurd (hperm.mpr hyes) h⟩,
      fun _ => rfl⟩

/-! ## Claim C2: comment deletion is for the author alone -/

/-- Claim C2: deleting a comment c succeeds exactly for c.author; any other
principal, in particular the owner of the board and the creator of the
comment's task when they differ from the author, is denied with 403. -/
theorem destroyComment_iff_author (user : UserId) (comment : Comment) (task : Task) :
    (destroyComment user comment = .ok () ↔ user = comment.author) ∧
    (task.board.owner ≠ comment.author →
      destroyComment task.board.owner comment = .forbidden) ∧
    (∀ creator : UserId, task.createdBy = some creator → creator ≠ comment.author →
      destroyComment creator comment = .forbidden) := by
  have hcase : ∀ u : UserId, u ≠ comment.author → destroyComment u comment = .forbidden := by
    intro u hu
    rw [destroyComment, if_neg]
    simp only [isCommentCreator, beq_iff_eq]
    exact fun h => hu h.symm
  refine ⟨?_, fun hne => hcase _ hne, fun creator _ hne => hcase creator hne⟩
  rw [destroyComment]
  by_cases h : isCommentCreator user comment = true
  · rw [if_pos h]
    simp only [isCommentCreator, beq_iff_eq] at h
    exact ⟨fun _ => h.symm, fun _ => rfl⟩
  · rw [if_neg h]
    simp only [isCommentCreator, beq_iff_eq] at h
    exact ⟨fun hc => Outcome.noConfusion hc, fun he => absurd he.symm h⟩

/-! ## HTTP method gating on `TaskViewSet` (`app_task/api/views.py`) -/

/-- `TaskViewSet.http_method_names = ['post', 'partial_update', 'delete']`,
verbatim from the source. -/
def taskViewSetHttpMethodNames : List String :=
  ["post", "partial_update", "delete"]

/-- The dispatch of a PATCH request routed to `TaskViewSet.partial_update`.
`APIView.dispatch` first runs `initial` (permission classes: `IsAuthenticated`
passes for any authenticated principal, and `IsBoardMemberForTask.has_permission`
returns `True` for every non-create action), then selects the handler only if
`request.method.lower()` is in `http_method_names`; otherwise it responds 405.
Were the handler reached, `get_object` would run the object-level
`IsBoardMemberForTask` check and the serializer would update the task. -/
def taskPartialUpdateDispatch (user : UserId) (task : Task) : Outcome Task :=
  if taskViewSetHttpMethodNames.contains "patch" then
    if isBoardMemberForTaskObj user task then .ok task else .forbidden
  else
    .methodNotAllowed

/-! ## Claim C8: PATCH on a task

The claim says a non-member's PATCH is rejected with 403 and members may
partially update. The object-level permission class does implement exactly
the membership test, but `http_method_names` lists the action name
`partial_update` instead of the HTTP verb `patch`, so every PATCH request is
answered 405 before any permission or update runs: the documented behaviour
is unreachable. -/

/-- Claim C8 (code evaluation): every PATCH against `TaskViewSet` — by a
member of the task's board as much as by a non-member — yields 405 Method Not
Allowed, never a 403 denial nor a successful update, because "patch" is not
in `taskViewSetHttpMethodNames`; meanwhile the object-level permission
`IsBoardMemberForTask` is precisely the membership test the claim describes. -/
theorem taskPatch_methodNotAllowed (user : UserId) (task : Task) :
    taskPartialUpdateDispatch user task = .methodNotAllowed ∧
    (isBoardMemberForTaskObj user task = true ↔ user ∈ task.board.members) := by
  constructor
  · rw [taskPartialUpdateDispatch, if_neg]
    intro h
    rw [taskViewSetHttpMethodNames] at h
    simp at h
  · simp [isBoardMemberForTaskObj]

/-! ## TaskSerializer (`app_task/api/serializers.py`) -/

/-- The resolved `validated_data` reaching `TaskSerializer.validate`: `board`
is the resolved `Board` (present iff the request supplied a board id, the
field being writable on create and update alike), `assignee`/`reviewer` are
present iff the corresponding `assignee_id`/`reviewer_id` supplied a non-null
user. A supplied `null` leaves the falsy `None`, which both `if assignee and`
checks skip exactly like an absent key, so it is embedded as `none` too. -/
structure TaskAttrs where
  board : Option Board
  assignee : Option UserId
  reviewer : Option UserId
  deriving Repr, DecidableEq

/-- The line `board = attrs.get('board') or getattr(self.instance, 'board',
None)` in `TaskSerializer.validate`: a supplied board (always truthy) wins,
else the instance board if an instance exists, else `None`. -/
def validationBoard (attrs : TaskAttrs) (inst : Option Task) : Option Board :=
  match attrs.board with
  | some b => some b
  | none => inst.map Task.board

/-- Result of `TaskSerializer.validate`: success, a raised
`ValidationError({field: msg})`, or the `AttributeError` Python would raise
dereferencing `board.members` when `board` is `None` (unreachable in the real
flows: create requires the board field and update always has an instance). -/
inductive ValidateResult where
  | ok
  | fieldError (field : String) (msg : String)
  | noneBoardCrash
  deriving Repr, DecidableEq

/-- The second half of `TaskSerializer.validate`: `if reviewer and not
board.members.filter(id=reviewer.id).exists(): raise ...` then `return attrs`. -/
def reviewerCheck (board : Option Board) (reviewer : Option UserId) : ValidateResult :=
  match reviewer with
  | none => .ok
  | some r =>
    match board with
    | none => .noneBoardCrash
    | some b =>
      if !(b.members.contains r) then
        .fieldError "reviewer_id" "Reviewer must be a member of the board."
      else
        .ok

/-- `TaskSerializer.validate(attrs)`: reads the board as `validationBoard`,
checks the supplied assignee is a board member (by id, via
`board.members.filter(id=assignee.id).exists()`), then the supplied reviewer,
raising a field-scoped error naming `assignee_id` resp. `reviewer_id`. -/
def taskSerializerValidate (attrs : TaskAttrs) (inst : Option Task) : ValidateResult :=
  let board := validationBoard attrs inst
  match attrs.assignee with
  | none => reviewerCheck board attrs.reviewer
  | some a =>
    match board with
    | none => .noneBoardCrash
    | some b =>
      if !(b.members.contains a) then
        .fieldError "assignee_id" "Assignee must be a member of the board."
      else
        reviewerCheck board attrs.reviewer

/-- The board the task is associated with once the write completes: on create
the task is saved onto the request's (required, resolved) `board`; on update
DRF assigns every supplied field onto the instance — `board` is writable on
`TaskSerializer` — so a supplied board replaces the instance board, which is
otherwise kept. -/
def writeBoard (attrs : TaskAttrs) (inst : Option Task) : Option Board :=
  match inst with
  | none => attrs.board
  | some t => some (attrs.board.getD t.board)

/-- The board `TaskSerializer.validate` checks membership against is exactly
the board the written task ends up associated with. -/
theorem validationBoard_eq_writeBoard (attrs : TaskAttrs) (inst : Option Task) :
    validationBoard attrs inst = writeBoard attrs inst := by
  rcases inst with _ | t <;> rcases h : attrs.board with _ | x <;>
    simp [validationBoard, writeBoard, h]

/-! ## Claim C1: assignee and reviewer must be members of the written task's board -/

/-- Claim C1: a task write (create or partial update) that supplies an
assignee succeeds iff that user is a member of the board the task is
associated with by the write (`writeBoard`: the resulting task's board, which
the validation board provably equals — not an unrelated body field), and
otherwise fails with a validation error scoped to `assignee_id`; the same
rule holds for a supplied reviewer with an error scoped to `reviewer_id`,
surfaced when the assignee check passes. -/
theorem taskValidate_members_of_writeBoard (attrs : TaskAttrs) (inst : Option Task)
    (b : Board) (hb : writeBoard attrs inst = some b) :
    (taskSerializerValidate attrs inst = .ok ↔
      (∀ a, attrs.assignee = some a → a ∈ b.members) ∧
      (∀ r, attrs.reviewer = some r → r ∈ b.members)) ∧
    (∀ a, attrs.assignee = some a → a ∉ b.members →
      taskSerializerValidate attrs inst =
        .fieldError "assignee_id" "Assignee must be a member of the board.") ∧
    (∀ r, attrs.reviewer = some r → r ∉ b.members →
      (∀ a, attrs.assignee = some a → a ∈ b.members) →
      taskSerializerValidate attrs inst =
        .fieldError "reviewer_id" "Reviewer must be a member of the board.") := by
  have hv : validationBoard attrs inst = some b :=
    (validationBoard_eq_writeBoard attrs inst).trans hb
  rcases hA : attrs.assignee with _ | a <;> rcases hR : attrs.reviewer with _ | r
  · simp [taskSerializerValidate, reviewerCheck, hv, hA, hR]
  · by_cases hr : r ∈ b.members <;>
      simp [taskSerializerValidate, reviewerCheck, hv, hA, hR, hr]
  · by_cases ha : a ∈ b.members <;>
      simp [taskSerializerValidate, reviewerCheck, hv, hA, hR, ha]
  · by_cases ha : a ∈ b.members <;> by_cases hr : r ∈ b.members <;>
      simp [taskSerializerValidate, reviewerCheck, hv, hA, hR, ha, hr]

/-- Witness for C1: on a concrete create whose board has members `[1, 2]`,
supplying assignee 1 and reviewer 2 validates, and the stated error cases are
vacuous at this input. -/
theorem taskValidate_members_of_writeBoard_witness :
    (taskSerializerValidate ⟨some ⟨10, "Sprint 1", 1, [1, 2]⟩, some 1, some 2⟩ none = .ok ↔
      (∀ a, (some 1 : Option UserId) = some a → a ∈ [1, 2]) ∧
      (∀ r, (some 2 : Option UserId) = some r → r ∈ [1, 2])) ∧
    (∀ a, (some 1 : Option UserId) = some a → a ∉ [1, 2] →
      taskSerializerValidate ⟨some ⟨10, "Sprint 1", 1, [1, 2]⟩, some 1, some 2⟩ none =
        .fieldError "assignee_id" "Assignee must be a member of the board.") ∧
    (∀ r, (some 2 : Option UserId) = some r → r ∉ [1, 2] →
      (∀ a, (some 1 : Option UserId) = some a → a ∈ [1, 2]) →
      taskSerializerValidate ⟨some ⟨10, "Sprint 1", 1, [1, 2]⟩, some 1, some 2⟩ none =
        .fieldError "reviewer_id" "Reviewer must be a member of the board.") :=
  taskValidate_members_of_writeBoard ⟨some ⟨10, "Sprint 1", 1, [1, 2]⟩, some 1, some 2⟩
    none ⟨10, "Sprint 1", 1, [1, 2]⟩ (by decide)

/-! ## Task creation (`TaskViewSet`, `action == "create"`) -/

/-- A `POST /tasks` body as the permission class and serializer read it:
`board` is `request.data.get("board")` (absent key → `none`), `assigneeId`
and `reviewerId` carry a submitted non-null user id. -/
structure TaskCreateRequest where
  board : Option Nat
  title : String
  description : Option String
  status : String
  priority : String
  assigneeId : Option UserId
  reviewerId : Option UserId
  dueDate : Option String
  deriving Repr, DecidableEq

/-- `STATUS_CHOICES` of `app_task.models`. -/
def statusChoices : List String := ["to-do", "in-progress", "review", "done"]

/-- `PRIORITY_CHOICES` of `app_task.models`. -/
def priorityChoices : List String := ["low", "medium", "high"]

/-- `IsBoardMemberForTask.has_permission` for `view.action == 'create'`: the
gate is `if not board_id:` — Python truthiness — so
`ValidationError({"board": "Board must be specified."})` is raised both for
an absent key (`request.data.get` returned `None`) and for a supplied falsy
id such as `0`; only a truthy id reaches `Board.objects.get(pk=board_id)`,
whose `DoesNotExist` becomes `NotFound`, and then the check is
`request.user in board.members.all()`. -/
def isBoardMemberForTaskCreate (db : DB) (user : UserId) (req : TaskCreateRequest) :
    Outcome Board :=
  match req.board with
  | none => .validationError "board" "Board must be specified."
  | some boardId =>
    if boardId == 0 then
      .validationError "board" "Board must be specified."
    else
      match db.boards.find? (fun b => b.id == boardId) with
      | none => .notFound
      | some board =>
        if board.members.contains user then .ok board else .forbidden

/-- A `PrimaryKeyRelatedField` over `User.objects.all()` (`assignee_id`,
`reviewer_id`: optional, nullable): an absent or null value passes through,
a submitted pk must exist. -/
def resolveUserField (db : DB) (uid : Option UserId) (fld : String) :
    Outcome (Option UserId) :=
  match uid with
  | none => .ok none
  | some u =>
    if db.users.any (fun x => x.id == u) then .ok (some u)
    else .validationError fld "Invalid pk - object does not exist."

/-- Field-level validation of `TaskSerializer` on create, producing the
`validated_data` handed to `validate`: the required `board`
`PrimaryKeyRelatedField` resolves against `Board.objects.all()`, `title` is a
required non-blank `CharField(max_length=255)`, `status` and `priority` are
`ChoiceField`s over the model choices, and the user fields resolve as
`resolveUserField`. -/
def taskSerializerRunFields (db : DB) (req : TaskCreateRequest) :
    Outcome (Board × Option UserId × Option UserId) :=
  match req.board with
  | none => .validationError "board" "This field is required."
  | some boardId =>
    match db.boards.find? (fun b => b.id == boardId) with
    | none => .validationError "board" "Invalid pk - object does not exist."
    | some board =>
      if req.title.length == 0 || 255 < req.title.length then
        .validationError "title" "This field may not be blank."
      else if !(statusChoices.contains req.status) then
        .validationError "status" "Not a valid choice."
      else if !(priorityChoices.contains req.priority) then
        .validationError "priority" "Not a valid choice."
      else
        (resolveUserField db req.assigneeId "assignee_id").andThen fun assignee =>
          (resolveUserField db req.reviewerId "reviewer_id").andThen fun reviewer =>
            .ok (board, assignee, reviewer)

/-- Lift a `TaskSerializer.validate` result into the response: a raised
`serializers.ValidationError` is a 400, the `None`-board crash would be an
unhandled exception. -/
def liftValidate (v : ValidateResult) : Outcome Unit :=
  match v with
  | .ok => .ok ()
  | .fieldError fld msg => .validationError fld msg
  | .noneBoardCrash => .serverError "AttributeError"

/-- The `POST /tasks` pipeline for an authenticated principal: DRF runs the
permission classes (`IsAuthenticated`, then `IsBoardMemberForTask`), then the
serializer (field resolution followed by `validate`), then
`TaskViewSet.perform_create`, which is `serializer.save(created_by=self.request.user)`.
`newId` stands for the pk the store assigns. -/
def createTask (db : DB) (user : UserId) (req : TaskCreateRequest) (newId : Nat) :
    Outcome Task :=
  (isBoardMemberForTaskCreate db user req).andThen fun _ =>
    (taskSerializerRunFields db req).andThen fun data =>
      (liftValidate (taskSerializerValidate ⟨some data.1, data.2.1, data.2.2⟩ none)).andThen
        fun _ =>
          .ok { id := newId, board := data.1, title := req.title,
                description := req.description, status := req.status,
                priority := req.priority, assignee := data.2.1,
                reviewer := data.2.2, dueDate := req.dueDate,
                createdBy := some user }

/-- `resolveUserField` only ever succeeds or fails with a 400 scoped to its
own field. -/
theorem resolveUserField_shape (db : DB) (uid : Option UserId) (fld : String) :
    (∃ v, resolveUserField db uid fld = .ok v) ∨
    (∃ msg, resolveUserField db uid fld = .validationError fld msg) := by
  rcases uid with _ | u
  · exact Or.inl ⟨none, rfl⟩
  · by_cases h : db.users.any (fun x => x.id == u) = true
    · exact Or.inl ⟨some u, by simp [resolveUserField, h]⟩
    · exact Or.inr ⟨"Invalid pk - object does not exist.", by simp [resolveUserField, h]⟩

/-- Serializer field resolution either succeeds or raises a 400; it never
produces an authorization, not-found or server failure. -/
theorem taskSerializerRunFields_shape (db : DB) (req : TaskCreateRequest) :
    (∃ d, taskSerializerRunFields db req = .ok d) ∨
    (∃ fld msg, taskSerializerRunFields db req = .validationError fld msg) := by
  rw [taskSerializerRunFields]
  split
  · exact Or.inr ⟨_, _, rfl⟩
  · split
    · exact Or.inr ⟨_, _, rfl⟩
    · split
      · exact Or.inr ⟨_, _, rfl⟩
      · split
        · exact Or.inr ⟨_, _, rfl⟩
        · split
          · exact Or.inr ⟨_, _, rfl⟩
          · rcases resolveUserField_shape db req.assigneeId "assignee_id" with
              ⟨v1, h1⟩ | ⟨m1, h1⟩ <;> rw [h1] <;> simp only [Outcome.andThen]
            · rcases resolveUserField_shape db req.reviewerId "reviewer_id" with
                ⟨v2, h2⟩ | ⟨m2, h2⟩ <;> rw [h2] <;> simp only [Outcome.andThen]
              · exact Or.inl ⟨_, rfl⟩
              · exact Or.inr ⟨_, _, rfl⟩
            · exact Or.inr ⟨_, _, rfl⟩

/-! ## Claim C6: task creation gating and created_by -/

/-- Claim C6, amended for a falsy board id: creating a task fails with the
board-scoped validation error when the board id is missing or falsy (a
supplied `0` is caught by the source's `if not board_id:` truthiness test,
not by the pk lookup), with not-found when a truthy id resolves to no board,
is forbidden (among authenticated principals) exactly for non-members of the
resolved board, and on success stamps `created_by` with the principal. -/
theorem createTask_gating (db : DB) (user : UserId) (req : TaskCreateRequest)
    (newId : Nat) :
    ((req.board = none ∨ req.board = some 0) →
      createTask db user req newId = .validationError "board" "Board must be specified.") ∧
    (∀ bid, req.board = some bid → bid ≠ 0 →
      db.boards.find? (fun b => b.id == bid) = none →
      createTask db user req newId = .notFound) ∧
    (∀ bid board, req.board = some bid → bid ≠ 0 →
      db.boards.find? (fun b => b.id == bid) = some board →
      (createTask db user req newId = .forbidden ↔ user ∉ board.members)) ∧
    (∀ t, createTask db user req newId = .ok t → t.createdBy = some user) := by
  have hpermFound : ∀ bid board, req.board = some bid → bid ≠ 0 →
      db.boards.find? (fun b => b.id == bid) = some board →
      isBoardMemberForTaskCreate db user req =
        (if board.members.contains user then .ok board else .forbidden) := by
    intro bid board hbid hne hfind
    simp only [isBoardMemberForTaskCreate, hbid, hfind]
    rw [if_neg (by simpa using hne)]
  refine ⟨fun hfalsy => ?_, fun bid hbid hne hfind => ?_,
    fun bid board hbid hne hfind => ?_, fun t hok => ?_⟩
  · rcases hfalsy with h | h
    · simp [createTask, isBoardMemberForTaskCreate, h, Outcome.andThen]
    · simp [createTask, isBoardMemberForTaskCreate, h, Outcome.andThen]
  · simp [createTask, isBoardMemberForTaskCreate, hbid, hne, hfind, Outcome.andThen]
  · by_cases hmem : user ∈ board.members
    · refine ⟨fun hc => ?_, fun hc => absurd hmem hc⟩
      exfalso
      rw [createTask, hpermFound bid board hbid hne hfind,
        if_pos (by simpa using hmem)] at hc
      simp only [Outcome.andThen] at hc
      rcases taskSerializerRunFields_shape db req with ⟨d, hd⟩ | ⟨f1, m1, hd⟩ <;>
        rw [hd] at hc <;> simp only [Outcome.andThen] at hc
      · rcases hlv : taskSerializerValidate ⟨some d.1, d.2.1, d.2.2⟩ none with _ | ⟨f2, m2⟩ | _ <;>
          rw [hlv] at hc <;> simp [liftValidate, Outcome.andThen] at hc
      · exact Outcome.noConfusion hc
    · refine ⟨fun _ => hmem, fun _ => ?_⟩
      rw [createTask, hpermFound bid board hbid hne hfind, if_neg (by simpa using hmem)]
      rfl
  · rw [createTask] at hok
    rcases hp : isBoardMemberForTaskCreate db user req with b0 | ⟨f0, m0⟩ | _ | _ | _ | e0 <;>
      rw [hp] at hok <;> simp only [Outcome.andThen] at hok <;>
      try exact Outcome.noConfusion hok
    rcases taskSerializerRunFields_shape db req with ⟨d, hd⟩ | ⟨f1, m1, hd⟩ <;>
      rw [hd] at hok <;> simp only [Outcome.andThen] at hok
    · rcases hlv : taskSerializerValidate ⟨some d.1, d.2.1, d.2.2⟩ none with _ | ⟨f2, m2⟩ | _ <;>
        rw [hlv] at hok <;> simp only [liftValidate, Outcome.andThen] at hok
      · cases hok
        rfl
      · exact Outcome.noConfusion hok
      · exact Outcome.noConfusion hok
    · exact Outcome.noConfusion hok

/-- Counterexample for C6 as originally stated: the submitted board id 0
resolves to no existing board, yet the create does not answer not-found — the
falsy id is caught by `if not board_id:` and the request fails with the 400
"Board must be specified." validation error instead. -/
theorem createTask_boardZero_not_notFound :
    List.find? (fun b => b.id == (0 : Nat)) ([⟨10, "Sprint 1", 1, [1]⟩] : List Board)
        = none ∧
    createTask ⟨[⟨1, "a@x.com", "a@x.com", "A", "", "p1"⟩], [⟨10, "Sprint 1", 1, [1]⟩], [], []⟩
        1 ⟨some 0, "t", none, "to-do", "low", none, none, none⟩ 5 =
      .validationError "board" "Board must be specified." ∧
    createTask ⟨[⟨1, "a@x.com", "a@x.com", "A", "", "p1"⟩], [⟨10, "Sprint 1", 1, [1]⟩], [], []⟩
        1 ⟨some 0, "t", none, "to-do", "low", none, none, none⟩ 5 ≠ .notFound :=
  ⟨by decide, by decide, by decide⟩

/-! ## Board partial update (`BoardViewSet.partial_update`) -/

/-- A `PATCH /boards/{id}` body as `BoardUpdateRequestSerializer(instance,
data=request.data, partial=True)` reads it: with `partial=True` every field
is optional — the `required=True` on `members` is suspended — so an absent
key simply leaves `validated_data` without it. -/
structure BoardPatchData where
  title : Option String
  members : Option (List UserId)
  deriving Repr, DecidableEq

/-- The `members` `PrimaryKeyRelatedField(many=True)` of
`BoardUpdateRequestSerializer`: every submitted pk must exist in
`User.objects.all()`. -/
def checkMembersField (db : DB) (data : BoardPatchData) : Outcome BoardPatchData :=
  match data.members with
  | none => .ok data
  | some ms =>
    if ms.all (fun m => db.users.any (fun u => u.id == m)) then .ok data
    else .validationError "members" "Invalid pk - object does not exist."

/-- `req_serializer.is_valid(raise_exception=True)` for
`BoardUpdateRequestSerializer`: the model `title` is a non-blank
`CharField(max_length=255)` when supplied, and member pks must resolve. -/
def boardUpdateRequestValidate (db : DB) (data : BoardPatchData) :
    Outcome BoardPatchData :=
  match data.title with
  | some t =>
    if t.length == 0 || 255 < t.length then
      .validationError "title" "This field may not be blank."
    else checkMembersField db data
  | none => checkMembersField db data

/-- `BoardViewSet.partial_update` once `get_object` has resolved the board and
`IsBoardMemberOrOwner` has passed: validate the request serializer, save it
(DRF applies each supplied field, including a supplied `members` list, onto
the instance), then run `members = req_serializer.validated_data.get('members', [])`
followed by `board.members.set(members)` — the `.get` default is the empty
list, not the current membership. -/
def boardPartialUpdate (db : DB) (board : Board) (data : BoardPatchData) :
    Outcome Board :=
  (boardUpdateRequestValidate db data).andThen fun vd =>
    let saved : Board :=
      { board with title := vd.title.getD board.title,
                   members := vd.members.getD board.members }
    let members := vd.members.getD []
    .ok { saved with members := members }

/-! ## Claim C9: a PATCH without a members key wipes the membership -/

/-- Claim C9: an authorized board PATCH whose body has no `members` key — a
title-only update, say — replaces the member set with the empty set:
`validated_data.get('members', [])` defaults to `[]` and `board.members.set`
is called with it, so every existing member is removed instead of kept. -/
theorem boardPatch_without_members_clears (db : DB) (board : Board)
    (data : BoardPatchData) (result : Board)
    (hmem : data.members = none)
    (hok : boardPartialUpdate db board data = .ok result) :
    result.members = [] ∧ result.title = data.title.getD board.title := by
  have hcm : checkMembersField db data = .ok data := by
    simp only [checkMembersField, hmem]
  have hval : boardUpdateRequestValidate db data = .ok data ∨
      boardUpdateRequestValidate db data =
        .validationError "title" "This field may not be blank." := by
    rw [boardUpdateRequestValidate.eq_def]
    split
    · split
      · exact Or.inr rfl
      · exact Or.inl hcm
    · exact Or.inl hcm
  rcases hval with hv | hv
  · rw [boardPartialUpdate, hv] at hok
    simp only [Outcome.andThen] at hok
    cases hok
    simp [hmem]
  · rw [boardPartialUpdate, hv] at hok
    simp only [Outcome.andThen] at hok
    exact Outcome.noConfusion hok

/-- Witness for C9: patching the board `{id 10, title "Sprint 1", owner 1,
members [1, 2]}` with a body containing only a new title leaves a board whose
member list is empty. -/
theorem boardPatch_without_members_clears_witness :
    ((⟨some "Renamed", none⟩ : BoardPatchData).members = none) ∧
    (boardPartialUpdate ⟨[⟨1, "a@x.com", "a@x.com", "", "", "p1"⟩], [], [], []⟩
        ⟨10, "Sprint 1", 1, [1, 2]⟩ ⟨some "Renamed", none⟩ =
      .ok ⟨10, "Renamed", 1, []⟩) ∧
    (⟨10, "Renamed", 1, []⟩ : Board).members = [] ∧
    (⟨10, "Renamed", 1, []⟩ : Board).title =
      (⟨some "Renamed", none⟩ : BoardPatchData).title.getD "Sprint 1" :=
  ⟨rfl, by decide,
    boardPatch_without_members_clears
      ⟨[⟨1, "a@x.com", "a@x.com", "", "", "p1"⟩], [], [], []⟩
      ⟨10, "Sprint 1", 1, [1, 2]⟩ ⟨some "Renamed", none⟩ ⟨10, "Renamed", 1, []⟩
      rfl (by decide)⟩

/-! ## Login (`app_auth/api/views.py`, `LoginView.post`) -/

/-- Result of `LoginView.post`, tagged with the HTTP status the browser sees;
`raisedNameError` records the unhandled `NameError` escaping the handler
(surfacing as a 500, not as any structured response). -/
inductive LoginResult where
  | success (userId : UserId)
  | badRequest (msg : String)
  | unauthorized (msg : String)
  | raisedNameError
  deriving Repr, DecidableEq

/-- `django.contrib.auth.authenticate(request, username=..., password=...)`
with the default model backend: the user with that username whose stored
credential matches the submitted password, else `None`. -/
def authenticate (db : DB) (username password : String) : Option User :=
  db.users.find? (fun u => u.username == username && u.password == password)

/-- `LoginView.post`: missing email or password → 400 with
"Email and password are required.". Then `user_obj = User.objects.get(email=email)`
runs inside `try`. When no user has that email, `get` raises
`User.DoesNotExist` and Python evaluates the matching clause
`except user_obj.DoesNotExist:` — `user_obj` was never bound, so that lookup
itself raises `NameError`, and the clause body returning 401 is unreachable.
When the user exists, `authenticate(request, username=user_obj.username,
password=password)` decides between the 200 response and the final `else`,
which returns the error response `Invalid credentials.` with
`status=status.HTTP_400_BAD_REQUEST`. -/
def loginPost (db : DB) (email password : Option String) : LoginResult :=
  match email, password with
  | some e, some pw =>
    match db.users.find? (fun u => u.email == e) with
    | some userObj =>
      match authenticate db userObj.username pw with
      | some user => .success user.id
      | none => .badRequest "Invalid credentials."
    | none => .raisedNameError
  | _, _ => .badRequest "Email and password are required."

/-! ## Claim C7: login with an existing email and a wrong password

The claim (and the view docstring) says 401; the code's wrong-password branch
returns the 400 response. -/

/-- Claim C7 (code evaluation): when a user with the submitted email exists
and authentication rejects the password, `LoginView.post` answers 400
"Invalid credentials.", and in particular not a 401 of any message:
the claimed 401 is refuted by the code. -/
theorem loginWrongPassword_returns400 (db : DB) (e pw : String) (u : User)
    (hfind : db.users.find? (fun x => x.email == e) = some u)
    (hauth : authenticate db u.username pw = none) :
    loginPost db (some e) (some pw) = .badRequest "Invalid credentials." ∧
    ∀ m, loginPost db (some e) (some pw) ≠ .unauthorized m := by
  have h : loginPost db (some e) (some pw) = .badRequest "Invalid credentials." := by
    simp only [loginPost, hfind, hauth]
  exact ⟨h, fun m hc => by rw [h] at hc; exact LoginResult.noConfusion hc⟩

/-- Witness for C7: one registered user with email a@x.com and password p1;
logging in with password "wrong" yields the 400 response. -/
theorem loginWrongPassword_returns400_witness :
    loginPost ⟨[⟨1, "a@x.com", "a@x.com", "A", "", "p1"⟩], [], [], []⟩
        (some "a@x.com") (some "wrong") = .badRequest "Invalid credentials." ∧
    ∀ m, loginPost ⟨[⟨1, "a@x.com", "a@x.com", "A", "", "p1"⟩], [], [], []⟩
        (some "a@x.com") (some "wrong") ≠ .unauthorized m :=
  loginWrongPassword_returns400 ⟨[⟨1, "a@x.com", "a@x.com", "A", "", "p1"⟩], [], [], []⟩
    "a@x.com" "wrong" ⟨1, "a@x.com", "a@x.com", "A", "", "p1"⟩ (by decide) (by decide)

/-! ## Claim C10: login with an unknown email raises NameError -/

/-- Claim C10: a login request carrying both fields but an email no user has
hits `except user_obj.DoesNotExist:` with `user_obj` unbound, so the handler
raises `NameError` instead of returning the 401 "Invalid credentials."
response of that clause. -/
theorem loginUnknownEmail_raisesNameError (db : DB) (e pw : String)
    (hnone : db.users.find? (fun x => x.email == e) = none) :
    loginPost db (some e) (some pw) = .raisedNameError ∧
    ∀ m, loginPost db (some e) (some pw) ≠ .unauthorized m := by
  have h : loginPost db (some e) (some pw) = .raisedNameError := by
    simp only [loginPost, hnone]
  exact ⟨h, fun m hc => by rw [h] at hc; exact LoginResult.noConfusion hc⟩

/-- Witness for C10: an empty user table; logging in with any email raises
the NameError outcome. -/
theorem loginUnknownEmail_raisesNameError_witness :
    loginPost ⟨[], [], [], []⟩ (some "a@x.com") (some "p1") = .raisedNameError ∧
    ∀ m, loginPost ⟨[], [], [], []⟩ (some "a@x.com") (some "p1") ≠ .unauthorized m :=
  loginUnknownEmail_raisesNameError ⟨[], [], [], []⟩ "a@x.com" "p1" (by decide)

end KanMind
